import Mathlib

/-!
Verification of the ClaudeScope usage-ingestion pipeline
(`scripts/hooks/sync-usage.js`).

The JavaScript source is shallowly embedded as Lean functions:

* token counts are `Nat`, money amounts are exact rationals `ℚ`
  (the script's `Math.round(x * 1e6) / 1e6` is modelled by `jsRound`,
  JavaScript's round-half-up on non-negative values, i.e. `⌊x + 1/2⌋`);
* JavaScript `Map` and plain-object dictionaries are association lists
  with JavaScript's update-in-place / append-on-miss semantics
  (`updateAssoc`), which preserves first-insertion iteration order
  exactly as `Map.set` and object property assignment do;
* optional / absent JSON fields are `Option`, and the `x || d` idiom on
  strings and numbers is modelled by `jsOrStr` / `jsTruthyNum`
  (`""`, `0` and absent values are falsy);
* the filesystem walk, the ledger file and the network upload performed
  by `syncAll` are modelled by explicit state passing: the directory
  tree is a list of project directories with parsed session files, the
  ledger file is an association list threaded through the run, and the
  `fetch` upload is an oracle `uploadOk : UploadRecord → Bool` together
  with a log of all attempted upload calls.
-/

/-- A token-usage tuple as found in a log entry's `usage` object.  The
script normalises every field with `|| 0`, so an absent field is the
same as `0` and the fields are modelled directly as `Nat`. -/
structure Usage where
  input_tokens : Nat
  output_tokens : Nat
  cache_creation_input_tokens : Nat
  cache_read_input_tokens : Nat
deriving Repr, DecidableEq

/-- One row of the pricing table: USD per one million tokens. -/
structure Rates where
  input : ℚ
  output : ℚ
  cache_read : ℚ
  cache_write : ℚ
deriving Repr, DecidableEq

/-- The `default` row of the `PRICING` table in `sync-usage.js`. -/
def PRICING_default : Rates :=
  { input := 5, output := 25, cache_read := 1/2, cache_write := 25/4 }

/-- The `PRICING` table of `sync-usage.js` as a partial map from family
key to rates (`0.5 = 1/2`, `6.25 = 25/4`, `1.5 = 3/2`, `18.75 = 75/4`,
`0.3 = 3/10`, `3.75 = 15/4`, `0.8 = 4/5`, `0.08 = 2/25`). -/
def PRICING (k : String) : Option Rates :=
  if k = "claude-opus-4.6" then
    some { input := 5, output := 25, cache_read := 1/2, cache_write := 25/4 }
  else if k = "claude-opus-4" then
    some { input := 15, output := 75, cache_read := 3/2, cache_write := 75/4 }
  else if k = "claude-sonnet-4" then
    some { input := 3, output := 15, cache_read := 3/10, cache_write := 15/4 }
  else if k = "claude-haiku-4.5" then
    some { input := 4/5, output := 4, cache_read := 2/25, cache_write := 1 }
  else if k = "default" then some PRICING_default
  else none

/-- The rate row actually used by `calculateCost`:
`PRICING[modelFamily] || PRICING.default`. -/
def getPricing (modelFamily : String) : Rates :=
  (PRICING modelFamily).getD PRICING_default

/-- Substring test on character lists: does `s` begin with `pat`? -/
def charsBeginWith : List Char → List Char → Bool
  | _, [] => true
  | [], _ :: _ => false
  | c :: cs, p :: ps => (c = p) && charsBeginWith cs ps

/-- Contiguous substring containment on character lists. -/
def charsContain (s pat : List Char) : Bool :=
  match s with
  | [] => charsBeginWith [] pat
  | _ :: cs => charsBeginWith s pat || charsContain cs pat

/-- JavaScript `String.prototype.includes`: contiguous substring test. -/
def jsIncludes (s pat : String) : Bool :=
  charsContain s.toList pat.toList

/-- The `getModelFamily` function of `sync-usage.js`: substring
containment tests, first match wins, `"opus-4-6"` before `"opus"`. -/
def getModelFamily (modelString : String) : String :=
  if jsIncludes modelString "opus-4-6" then "claude-opus-4.6"
  else if jsIncludes modelString "opus" then "claude-opus-4"
  else if jsIncludes modelString "haiku" then "claude-haiku-4.5"
  else if jsIncludes modelString "sonnet" then "claude-sonnet-4"
  else "default"

/-- The `normalInput` local of `calculateCost`:
`input_tokens − cache_read_input_tokens − cache_creation_input_tokens`
(computed in ℤ because the JavaScript subtraction can go negative; the
clamp `Math.max(0, ·)` is applied at the use site, as in the source). -/
def normalInput (u : Usage) : ℤ :=
  (u.input_tokens : ℤ) - (u.cache_read_input_tokens : ℤ)
    - (u.cache_creation_input_tokens : ℤ)

/-- JavaScript `Math.round` on a non-negative rational:
round half away from zero, i.e. `⌊q + 1/2⌋`. -/
def jsRound (q : ℚ) : ℤ := ⌊q + 1/2⌋

/-- The un-rounded cost sum of `calculateCost` (its `cost` local),
against an explicit rate row. -/
def costRaw (u : Usage) (p : Rates) : ℚ :=
  ((max 0 (normalInput u) : ℤ) : ℚ) / 1000000 * p.input
    + (u.cache_creation_input_tokens : ℚ) / 1000000 * p.cache_write
    + (u.cache_read_input_tokens : ℚ) / 1000000 * p.cache_read
    + (u.output_tokens : ℚ) / 1000000 * p.output

/-- The input-token component of the cost sum (the first summand of
`costRaw`): clamped normal input times the input rate. -/
def inputCostComponent (u : Usage) (p : Rates) : ℚ :=
  ((max 0 (normalInput u) : ℤ) : ℚ) / 1000000 * p.input

/-- The `calculateCost` function of `sync-usage.js`:
`Math.round(cost * 1e6) / 1e6` of the four-part cost sum. -/
def calculateCost (usage : Usage) (modelFamily : String) : ℚ :=
  let p := (PRICING modelFamily).getD PRICING_default
  let cost := costRaw usage p
  ((jsRound (cost * 1000000) : ℤ) : ℚ) / 1000000

/-- Rounding to six decimal places, as the specification words it. -/
def roundTo6 (q : ℚ) : ℚ :=
  ((jsRound (q * 1000000) : ℤ) : ℚ) / 1000000

/-- The cost formula exactly as the specification states it
(spec §4.2): `normalInput = max(0, inputTokens − cacheReadTokens −
cacheWriteTokens)` and the four per-million-rate products, before
rounding. -/
def specCostFormula (u : Usage) (p : Rates) : ℚ :=
  ((max 0 ((u.input_tokens : ℤ) - (u.cache_read_input_tokens : ℤ)
      - (u.cache_creation_input_tokens : ℤ)) : ℤ) : ℚ) / 1000000 * p.input
    + (u.cache_creation_input_tokens : ℚ) / 1000000 * p.cache_write
    + (u.cache_read_input_tokens : ℚ) / 1000000 * p.cache_read
    + (u.output_tokens : ℚ) / 1000000 * p.output

/-- JavaScript `x || d` for an optional string: `undefined` and the
empty string are falsy. -/
def jsOrStr (o : Option String) (d : String) : String :=
  match o with
  | some s => if s = "" then d else s
  | none => d

/-- JavaScript truthiness of an optional number (`undefined` and `0`
are falsy), as used by the `synced[sessionId]` ledger check. -/
def jsTruthyNum (o : Option Nat) : Bool :=
  match o with
  | some n => decide (n ≠ 0)
  | none => false

/-- Update-or-append on an association list: JavaScript `Map.set` and
object property assignment (an existing key keeps its first-insertion
position, a new key is appended). -/
def updateAssoc {α : Type} : List (String × α) → String → α → List (String × α)
  | [], k, v => [(k, v)]
  | (k', v') :: rest, k, v =>
    if k' = k then (k, v) :: rest else (k', v') :: updateAssoc rest k v

/-- Key lookup on an association list: JavaScript `Map.get` / property
access (`none` is `undefined`). -/
def lookupAssoc {α : Type} : List (String × α) → String → Option α
  | [], _ => none
  | (k', v') :: rest, k => if k' = k then some v' else lookupAssoc rest k

/-- The `message` object of a log entry: optional `usage` and `model`. -/
structure MsgPayload where
  usage : Option Usage
  model : Option String
deriving Repr, DecidableEq

/-- The `data.message` object of a nested-shape entry: its own
`requestId` and an inner `message` object. -/
structure NestedMsg where
  requestId : Option String
  message : Option MsgPayload
deriving Repr, DecidableEq

/-- The `data` object of a nested-shape entry. -/
structure DataObj where
  message : Option NestedMsg
deriving Repr, DecidableEq

/-- One successfully JSON-parsed log line, with the fields
`parseSessionFile` reads; every field is optional in the logs. -/
structure LogEntry where
  timestamp : Option String
  requestId : Option String
  message : Option MsgPayload
  data : Option DataObj
deriving Repr, DecidableEq

/-- A value of the per-request map: the stored usage object and the
`model || "unknown"` string. -/
structure ReqData where
  usage : Usage
  model : String
deriving Repr, DecidableEq

/-- The loop state of `parseSessionFile`: the request map and the
session start/end timestamps. -/
structure ParseState where
  requestMap : List (String × ReqData)
  sessionStart : Option String
  sessionEnd : Option String
deriving Repr, DecidableEq

/-- One iteration of the line loop of `parseSessionFile`.  A line is
`none` when `JSON.parse` threw (the line is silently skipped).  The
timestamp update runs first, then the direct ("opus") shape, then the
nested ("haiku/agent") shape, exactly as in the source; a request id
must be truthy (present and non-empty) for its map write to happen. -/
def processLine (st : ParseState) (line : Option LogEntry) : ParseState :=
  match line with
  | none => st
  | some e =>
    let st1 :=
      match e.timestamp with
      | some ts =>
        if ts = "" then st
        else { st with sessionStart := some (st.sessionStart.getD ts),
                       sessionEnd := some ts }
      | none => st
    let st2 :=
      match e.message with
      | some msg =>
        match msg.usage, e.requestId with
        | some u, some rid =>
          if rid = "" then st1
          else
            let rd : ReqData := { usage := u, model := jsOrStr msg.model "unknown" }
            { st1 with requestMap := updateAssoc st1.requestMap rid rd }
        | _, _ => st1
      | none => st1
    let nested :=
      match e.data with
      | some d => d.message
      | none => none
    match nested with
    | some nm =>
      match nm.message with
      | some inner =>
        match inner.usage, nm.requestId with
        | some u, some rid =>
          if rid = "" then st2
          else
            let rd : ReqData := { usage := u, model := jsOrStr inner.model "unknown" }
            { st2 with requestMap := updateAssoc st2.requestMap rid rd }
        | _, _ => st2
      | none => st2
    | none => st2

/-- The all-zero `totalUsage` accumulator initial value. -/
def zeroUsage : Usage :=
  { input_tokens := 0, output_tokens := 0,
    cache_creation_input_tokens := 0, cache_read_input_tokens := 0 }

/-- Fieldwise sum of two usage tuples (the `totalUsage.x += usage.x || 0`
statements). -/
def addUsage (t u : Usage) : Usage :=
  { input_tokens := t.input_tokens + u.input_tokens
    output_tokens := t.output_tokens + u.output_tokens
    cache_creation_input_tokens :=
      t.cache_creation_input_tokens + u.cache_creation_input_tokens
    cache_read_input_tokens :=
      t.cache_read_input_tokens + u.cache_read_input_tokens }

/-- The accumulator of the aggregation loop over the deduplicated
request map values. -/
structure AggState where
  totalUsage : Usage
  totalCost : ℚ
  modelCount : List (String × Nat)
  modelCost : List (String × ℚ)
deriving Repr, DecidableEq

/-- One iteration of the aggregation loop of `parseSessionFile`: add the
request's usage to the totals, price it against its own resolved family,
and bump the per-family count and cost. -/
def aggregateReq (acc : AggState) (rd : ReqData) : AggState :=
  let family := getModelFamily rd.model
  let reqCost := calculateCost rd.usage family
  { totalUsage := addUsage acc.totalUsage rd.usage
    totalCost := acc.totalCost + reqCost
    modelCount := updateAssoc acc.modelCount family
      ((lookupAssoc acc.modelCount family).getD 0 + 1)
    modelCost := updateAssoc acc.modelCost family
      ((lookupAssoc acc.modelCost family).getD 0 + reqCost) }

/-- Stable insertion of an entry into a count-descending list: the entry
passes every strictly greater count and stops before an equal or smaller
one. -/
def insertDescByCount (p : String × Nat) :
    List (String × Nat) → List (String × Nat)
  | [] => [p]
  | q :: rest => if p.2 < q.2 then q :: insertDescByCount p rest else p :: q :: rest

/-- Stable sort by descending count, modelling the JavaScript stable
`Array.prototype.sort` with comparator `(a, b) => b[1] - a[1]` used to
pick the primary model. -/
def sortDescByCount : List (String × Nat) → List (String × Nat)
  | [] => []
  | p :: rest => insertDescByCount p (sortDescByCount rest)

/-- The return value of `parseSessionFile`. -/
structure SessionAggregate where
  totalUsage : Usage
  totalCost : ℚ
  primaryModel : String
  modelCount : List (String × Nat)
  modelCost : List (String × ℚ)
  sessionStart : Option String
  sessionEnd : Option String
deriving Repr, DecidableEq

/-- The `parseSessionFile` function of `sync-usage.js`, over the list of
parse results of the file's lines (`none` = malformed line): build the
request map with keep-last-write deduplication, then aggregate totals,
per-family counts and costs, and the primary model
(`sort((a,b) => b[1]-a[1])[0]?.[0] || "unknown"`). -/
def parseSessionFile (lines : List (Option LogEntry)) : SessionAggregate :=
  let st := lines.foldl processLine
    { requestMap := [], sessionStart := none, sessionEnd := none }
  let agg := (st.requestMap.map Prod.snd).foldl aggregateReq
    { totalUsage := zeroUsage, totalCost := 0, modelCount := [], modelCost := [] }
  let primaryModel :=
    jsOrStr ((sortDescByCount agg.modelCount).head?.map Prod.fst) "unknown"
  { totalUsage := agg.totalUsage, totalCost := agg.totalCost,
    primaryModel := primaryModel, modelCount := agg.modelCount,
    modelCost := agg.modelCost, sessionStart := st.sessionStart,
    sessionEnd := st.sessionEnd }

/-- A direct-shape ("opus format") log line with the given request id,
usage and model. -/
def mkDirectLine (ts : Option String) (rid : String) (u : Usage)
    (model : Option String) : Option LogEntry :=
  some { timestamp := ts, requestId := some rid,
         message := some { usage := some u, model := model }, data := none }

/-- The record built by `syncAll` and posted to the remote store. -/
structure UploadRecord where
  machine_id : String
  session_id : String
  model : String
  project_slug : String
  input_tokens : Nat
  output_tokens : Nat
  cache_write_tokens : Nat
  cache_read_tokens : Nat
  cost_usd : ℚ
  session_start : String
  session_end : String
deriving Repr, DecidableEq

/-- One `<sessionId>.jsonl` file of a project directory: the session id
derived from the basename, the parse results of its lines, and the
filesystem birth/modification times used as timestamp fallbacks. -/
structure SessionFile where
  sessionId : String
  lines : List (Option LogEntry)
  birthtime : String
  mtime : String

/-- One project subdirectory of the log root: the project name derived
from the encoded directory name, and its `.jsonl` session files. -/
structure ProjectDir where
  project : String
  files : List SessionFile

/-- The observable effects of a `syncAll` run: the ledger file contents
(`~/.claude/.usage-synced.json`), the list of records for which the
upload call was made, and the `uploaded` / `skipped` / `grandTotal`
counters. -/
structure SyncState where
  ledgerFile : List (String × Nat)
  uploads : List UploadRecord
  uploaded : Nat
  skipped : Nat
  grandTotal : ℚ

/-- The `markSynced` function of `sync-usage.js`: read-modify-write of
the ledger file, setting `synced[sessionId] = Date.now()` (the current
epoch-millisecond clock is the `now` parameter). -/
def markSynced (ledger : List (String × Nat)) (sessionId : String)
    (now : Nat) : List (String × Nat) :=
  updateAssoc ledger sessionId now

/-- The upload record assembled by `syncAll` for one non-empty session:
aggregate usage/cost plus machine identity, project slug and session
start/end with filesystem fallbacks. -/
def mkRecord (machineId project : String) (f : SessionFile)
    (agg : SessionAggregate) : UploadRecord :=
  { machine_id := machineId
    session_id := f.sessionId
    model := jsOrStr (some agg.primaryModel) "unknown"
    project_slug := project
    input_tokens := agg.totalUsage.input_tokens
    output_tokens := agg.totalUsage.output_tokens
    cache_write_tokens := agg.totalUsage.cache_creation_input_tokens
    cache_read_tokens := agg.totalUsage.cache_read_input_tokens
    cost_usd := agg.totalCost
    session_start := jsOrStr agg.sessionStart f.birthtime
    session_end := jsOrStr agg.sessionEnd f.mtime }

/-- The per-file body of the `syncAll` loop.  `synced0` is the ledger
snapshot read once at the start of the run and used for the skip check;
`st.ledgerFile` is the evolving ledger file written by `markSynced`.
`uploadOk` decides whether the network upload succeeds; every attempted
upload is appended to `st.uploads`.  Branches, in source order: skip if
the session id is truthy in the snapshot; mark-and-skip (no upload) if
the aggregate has zero input and output tokens (ledger write suppressed
in dry-run); otherwise count the cost into `grandTotal`, then in dry-run
only bump `uploaded`, and otherwise attempt the upload, marking synced
only on success. -/
def processFile (dryRun : Bool) (now : Nat) (uploadOk : UploadRecord → Bool)
    (machineId : String) (synced0 : List (String × Nat)) (project : String)
    (st : SyncState) (f : SessionFile) : SyncState :=
  if jsTruthyNum (lookupAssoc synced0 f.sessionId) then
    { st with skipped := st.skipped + 1 }
  else
    let agg := parseSessionFile f.lines
    if agg.totalUsage.input_tokens = 0 ∧ agg.totalUsage.output_tokens = 0 then
      if dryRun then { st with skipped := st.skipped + 1 }
      else { st with ledgerFile := markSynced st.ledgerFile f.sessionId now,
                     skipped := st.skipped + 1 }
    else
      let record := mkRecord machineId project f agg
      let st1 := { st with grandTotal := st.grandTotal + agg.totalCost }
      if dryRun then { st1 with uploaded := st1.uploaded + 1 }
      else if uploadOk record then
        { st1 with uploads := st1.uploads ++ [record],
                   ledgerFile := markSynced st1.ledgerFile f.sessionId now,
                   uploaded := st1.uploaded + 1 }
      else { st1 with uploads := st1.uploads ++ [record] }

/-- The inner loop of `syncAll` over the `.jsonl` files of one project
directory. -/
def syncFiles (dryRun : Bool) (now : Nat) (uploadOk : UploadRecord → Bool)
    (machineId : String) (synced0 : List (String × Nat)) (project : String)
    (st : SyncState) (files : List SessionFile) : SyncState :=
  files.foldl (processFile dryRun now uploadOk machineId synced0 project) st

/-- The `syncAll` function of `sync-usage.js`: read the ledger snapshot,
then walk every project directory and every session file within it.  The
run starts with the ledger file equal to the snapshot and no uploads. -/
def syncAll (dryRun : Bool) (now : Nat) (uploadOk : UploadRecord → Bool)
    (machineId : String) (synced0 : List (String × Nat))
    (dirs : List ProjectDir) : SyncState :=
  dirs.foldl
    (fun st d => syncFiles dryRun now uploadOk machineId synced0 d.project st d.files)
    { ledgerFile := synced0, uploads := [], uploaded := 0, skipped := 0,
      grandTotal := 0 }

theorem jsRound_mono {q r : ℚ} (h : q ≤ r) : jsRound q ≤ jsRound r :=
  Int.floor_mono (by linarith)

theorem jsRound_nonneg {q : ℚ} (h : 0 ≤ q) : 0 ≤ jsRound q := by
  rw [jsRound, Int.le_floor]
  push_cast
  linarith

theorem roundTo6_mono {q r : ℚ} (h : q ≤ r) : roundTo6 q ≤ roundTo6 r := by
  unfold roundTo6
  have := jsRound_mono (mul_le_mul_of_nonneg_right h (by norm_num : (0:ℚ) ≤ 1000000))
  have : ((jsRound (q * 1000000) : ℤ) : ℚ) ≤ ((jsRound (r * 1000000) : ℤ) : ℚ) := by
    exact_mod_cast this
  linarith

theorem calculateCost_eq (u : Usage) (fam : String) :
    calculateCost u fam = roundTo6 (costRaw u (getPricing fam)) := rfl

theorem getPricing_pos (fam : String) :
    0 < (getPricing fam).input ∧ 0 < (getPricing fam).output ∧
    0 < (getPricing fam).cache_read ∧ 0 < (getPricing fam).cache_write ∧
    (getPricing fam).input ≤ (getPricing fam).cache_write := by
  unfold getPricing PRICING PRICING_default
  split_ifs <;> norm_num

theorem getPricing_sonnet :
    getPricing "claude-sonnet-4" =
      { input := 3, output := 15, cache_read := 3/10, cache_write := 15/4 } := by
  unfold getPricing PRICING
  rw [if_neg (by decide), if_neg (by decide), if_pos rfl]
  rfl

theorem costRaw_eq_div (u : Usage) (p : Rates) :
    costRaw u p =
      (((max 0 (normalInput u) : ℤ) : ℚ) * p.input
        + (u.cache_creation_input_tokens : ℚ) * p.cache_write
        + (u.cache_read_input_tokens : ℚ) * p.cache_read
        + (u.output_tokens : ℚ) * p.output) / 1000000 := by
  unfold costRaw
  ring

/-- C3: for every usage tuple and family the cost calculator returns the
specification's formula rounded to six decimal places, and on
`{input:1000, output:500, cacheWrite:200, cacheRead:100}` against
`claude-sonnet-4` it returns `0.01038`. -/
theorem calculateCost_formula_and_example :
    (∀ (u : Usage) (fam : String),
      calculateCost u fam = roundTo6 (specCostFormula u (getPricing fam)))
    ∧ calculateCost ⟨1000, 500, 200, 100⟩ "claude-sonnet-4" = 1038 / 100000 := by
  constructor
  · intro u fam
    rfl
  · rw [calculateCost_eq, getPricing_sonnet]
    norm_num [costRaw, normalInput, roundTo6, jsRound]

/-- C4: the cost is never negative, and whenever cache-read plus
cache-write tokens exceed the raw input tokens the input-token component
of the cost is exactly zero. -/
theorem calculateCost_nonneg_and_clamp :
    ∀ (u : Usage) (fam : String),
      0 ≤ calculateCost u fam ∧
      (u.input_tokens <
          u.cache_read_input_tokens + u.cache_creation_input_tokens →
        inputCostComponent u (getPricing fam) = 0) := by
  intro u fam
  obtain ⟨hi, ho, hr, hw, hiw⟩ := getPricing_pos fam
  constructor
  · rw [calculateCost_eq]
    unfold roundTo6
    have hA : (0:ℚ) ≤ ((max 0 (normalInput u) : ℤ) : ℚ) := by
      exact_mod_cast le_max_left 0 (normalInput u)
    have hc : 0 ≤ costRaw u (getPricing fam) := by
      rw [costRaw_eq_div]
      have h1 : (0:ℚ) ≤ ((max 0 (normalInput u) : ℤ) : ℚ) * (getPricing fam).input :=
        mul_nonneg hA hi.le
      have h2 : (0:ℚ) ≤ (u.cache_creation_input_tokens : ℚ) * (getPricing fam).cache_write :=
        mul_nonneg (by positivity) hw.le
      have h3 : (0:ℚ) ≤ (u.cache_read_input_tokens : ℚ) * (getPricing fam).cache_read :=
        mul_nonneg (by positivity) hr.le
      have h4 : (0:ℚ) ≤ (u.output_tokens : ℚ) * (getPricing fam).output :=
        mul_nonneg (by positivity) ho.le
      positivity
    have hround := jsRound_nonneg (mul_nonneg hc (by norm_num : (0:ℚ) ≤ 1000000))
    have : (0:ℚ) ≤ ((jsRound (costRaw u (getPricing fam) * 1000000) : ℤ) : ℚ) := by
      exact_mod_cast hround
    linarith
  · intro h
    unfold inputCostComponent
    have hmax : max 0 (normalInput u) = 0 := by
      unfold normalInput
      omega
    rw [hmax]
    norm_num

/-- C4 witness at usage `{input:100, output:0, cacheWrite:80, cacheRead:30}`. -/
theorem calculateCost_nonneg_and_clamp_witness :
    0 ≤ calculateCost ⟨100, 0, 80, 30⟩ "claude-sonnet-4" ∧
    inputCostComponent ⟨100, 0, 80, 30⟩ (getPricing "claude-sonnet-4") = 0 :=
  ⟨(calculateCost_nonneg_and_clamp ⟨100, 0, 80, 30⟩ "claude-sonnet-4").1,
   (calculateCost_nonneg_and_clamp ⟨100, 0, 80, 30⟩ "claude-sonnet-4").2 (by decide)⟩

/-- C5 counterexample: on `claude-sonnet-4`, raising cache-read tokens
from 0 to 100 while holding the other fields fixed strictly decreases
the returned cost (0.00273 < 0.003), so the calculator is not monotone
in every token field. -/
theorem calculateCost_cacheRead_decreases :
    calculateCost ⟨1000, 0, 0, 100⟩ "claude-sonnet-4"
      < calculateCost ⟨1000, 0, 0, 0⟩ "claude-sonnet-4" := by
  rw [calculateCost_eq, calculateCost_eq, getPricing_sonnet]
  norm_num [costRaw, normalInput, roundTo6, jsRound]

/-- C5 amended: the cost calculator is monotone in the input, output and
cache-write token fields (but not in cache-read, see the
counterexample: each cache-read token removes one normal input token,
priced higher than a cache read, from the bill). -/
theorem calculateCost_monotone_amended :
    ∀ (u : Usage) (fam : String) (n : Nat),
      (u.input_tokens ≤ n →
        calculateCost u fam ≤ calculateCost { u with input_tokens := n } fam)
      ∧ (u.output_tokens ≤ n →
        calculateCost u fam ≤ calculateCost { u with output_tokens := n } fam)
      ∧ (u.cache_creation_input_tokens ≤ n →
        calculateCost u fam ≤
          calculateCost { u with cache_creation_input_tokens := n } fam) := by
  intro u fam n
  obtain ⟨hi, ho, hr, hw, hiw⟩ := getPricing_pos fam
  refine ⟨fun h => ?_, fun h => ?_, fun h => ?_⟩
  · rw [calculateCost_eq, calculateCost_eq]
    apply roundTo6_mono
    rw [costRaw_eq_div, costRaw_eq_div]
    apply div_le_div_of_nonneg_right ?_ (by norm_num : (0:ℚ) ≤ 1000000)
    have hmax : max 0 (normalInput u) ≤
        max 0 (normalInput { u with input_tokens := n }) := by
      simp only [normalInput]
      omega
    have hmaxQ : ((max 0 (normalInput u) : ℤ) : ℚ) ≤
        ((max 0 (normalInput { u with input_tokens := n }) : ℤ) : ℚ) := by
      exact_mod_cast hmax
    have h1 := mul_le_mul_of_nonneg_right hmaxQ hi.le
    dsimp only
    linarith
  · rw [calculateCost_eq, calculateCost_eq]
    apply roundTo6_mono
    rw [costRaw_eq_div, costRaw_eq_div]
    apply div_le_div_of_nonneg_right ?_ (by norm_num : (0:ℚ) ≤ 1000000)
    have hcast : (u.output_tokens : ℚ) ≤ (n : ℚ) := by exact_mod_cast h
    have h1 := mul_le_mul_of_nonneg_right hcast ho.le
    have hmaxeq : normalInput { u with output_tokens := n } = normalInput u := rfl
    dsimp only
    rw [hmaxeq]
    linarith
  · rw [calculateCost_eq, calculateCost_eq]
    apply roundTo6_mono
    rw [costRaw_eq_div, costRaw_eq_div]
    apply div_le_div_of_nonneg_right ?_ (by norm_num : (0:ℚ) ≤ 1000000)
    have hcast : (u.cache_creation_input_tokens : ℚ) ≤ (n : ℚ) := by
      exact_mod_cast h
    have hmax : max 0 (normalInput u) ≤
        max 0 (normalInput { u with cache_creation_input_tokens := n })
          + ((n : ℤ) - (u.cache_creation_input_tokens : ℤ)) := by
      simp only [normalInput]
      omega
    have hmaxQ : ((max 0 (normalInput u) : ℤ) : ℚ) ≤
        ((max 0 (normalInput { u with cache_creation_input_tokens := n }) : ℤ) : ℚ)
          + ((n : ℚ) - (u.cache_creation_input_tokens : ℚ)) := by
      exact_mod_cast hmax
    have h1 := mul_le_mul_of_nonneg_right hmaxQ hi.le
    have h2 : ((n : ℚ) - (u.cache_creation_input_tokens : ℚ)) * (getPricing fam).input ≤
        ((n : ℚ) - (u.cache_creation_input_tokens : ℚ)) * (getPricing fam).cache_write :=
      mul_le_mul_of_nonneg_left hiw (by linarith)
    dsimp only
    nlinarith

/-- C5 amended witness: monotone steps at usage `{1,1,1,1}` on
`claude-sonnet-4`. -/
theorem calculateCost_monotone_amended_witness :
    calculateCost ⟨1, 1, 1, 1⟩ "claude-sonnet-4" ≤
      calculateCost ⟨2, 1, 1, 1⟩ "claude-sonnet-4" ∧
    calculateCost ⟨1, 1, 1, 1⟩ "claude-sonnet-4" ≤
      calculateCost ⟨1, 2, 1, 1⟩ "claude-sonnet-4" ∧
    calculateCost ⟨1, 1, 1, 1⟩ "claude-sonnet-4" ≤
      calculateCost ⟨1, 1, 2, 1⟩ "claude-sonnet-4" :=
  ⟨(calculateCost_monotone_amended ⟨1, 1, 1, 1⟩ "claude-sonnet-4" 2).1
      (by decide),
   (calculateCost_monotone_amended ⟨1, 1, 1, 1⟩ "claude-sonnet-4" 2).2.1
      (by decide),
   (calculateCost_monotone_amended ⟨1, 1, 1, 1⟩ "claude-sonnet-4" 2).2.2
      (by decide)⟩

/-- C6: the model family resolver is total and deterministic: every
string maps to exactly one of the five fixed keys, by substring
containment with first match winning in the fixed priority order
(`opus-4-6` before `opus` before `haiku` before `sonnet`), and a string
matching no pattern resolves to `default`. -/
theorem getModelFamily_total_first_match :
    ∀ s : String,
      (getModelFamily s = "claude-opus-4.6" ∨ getModelFamily s = "claude-opus-4" ∨
       getModelFamily s = "claude-haiku-4.5" ∨ getModelFamily s = "claude-sonnet-4" ∨
       getModelFamily s = "default")
      ∧ (jsIncludes s "opus-4-6" = true → getModelFamily s = "claude-opus-4.6")
      ∧ (jsIncludes s "opus-4-6" = false → jsIncludes s "opus" = true →
          getModelFamily s = "claude-opus-4")
      ∧ (jsIncludes s "opus-4-6" = false → jsIncludes s "opus" = false →
          jsIncludes s "haiku" = true → getModelFamily s = "claude-haiku-4.5")
      ∧ (jsIncludes s "opus-4-6" = false → jsIncludes s "opus" = false →
          jsIncludes s "haiku" = false → jsIncludes s "sonnet" = true →
          getModelFamily s = "claude-sonnet-4")
      ∧ (jsIncludes s "opus-4-6" = false → jsIncludes s "opus" = false →
          jsIncludes s "haiku" = false → jsIncludes s "sonnet" = false →
          getModelFamily s = "default") := by
  intro s
  unfold getModelFamily
  rcases h1 : jsIncludes s "opus-4-6" <;>
    rcases h2 : jsIncludes s "opus" <;>
    rcases h3 : jsIncludes s "haiku" <;>
    rcases h4 : jsIncludes s "sonnet" <;>
    simp [h1, h2, h3, h4]

/-- C6 witness: the resolver on three concrete model strings. -/
theorem getModelFamily_total_first_match_witness :
    getModelFamily "claude-opus-4-6-20260301" = "claude-opus-4.6" ∧
    getModelFamily "claude-opus-4-20250514" = "claude-opus-4" ∧
    getModelFamily "gpt-5-codex" = "default" :=
  ⟨(getModelFamily_total_first_match "claude-opus-4-6-20260301").2.1
      (by decide),
   (getModelFamily_total_first_match "claude-opus-4-20250514").2.2.1
      (by decide) (by decide),
   (getModelFamily_total_first_match "gpt-5-codex").2.2.2.2.2
      (by decide) (by decide) (by decide) (by decide)⟩

theorem lookupAssoc_updateAssoc_self {α : Type} (m : List (String × α))
    (k : String) (v : α) : lookupAssoc (updateAssoc m k v) k = some v := by
  induction m with
  | nil => simp [updateAssoc, lookupAssoc]
  | cons p rest ih =>
    obtain ⟨k', v'⟩ := p
    by_cases h : k' = k
    · simp [updateAssoc, lookupAssoc, h]
    · simp [updateAssoc, lookupAssoc, h, ih]

theorem processLine_direct (st : ParseState) (rid : String) (u : Usage)
    (m : Option String) (h : rid ≠ "") :
    processLine st (mkDirectLine none rid u m) =
      { st with requestMap := updateAssoc st.requestMap rid ⟨u, jsOrStr m "unknown"⟩ } := by
  simp [processLine, mkDirectLine, h]

/-- C2: deduplication is keep-last-write, never a sum: whatever lines
precede it, a direct-shape entry is the session's record for its request
id, and a two-entry file sharing one request id aggregates to exactly
the second entry's usage. -/
theorem parseSessionFile_keep_last_write :
    ∀ (ls : List (Option LogEntry)) (rid : String) (u1 u2 : Usage)
      (m1 m2 : Option String), rid ≠ "" →
      lookupAssoc
          ((ls ++ [mkDirectLine none rid u2 m2]).foldl processLine
            { requestMap := [], sessionStart := none, sessionEnd := none }).requestMap
          rid
        = some { usage := u2, model := jsOrStr m2 "unknown" }
      ∧ (parseSessionFile
          [mkDirectLine none rid u1 m1, mkDirectLine none rid u2 m2]).totalUsage = u2 := by
  intro ls rid u1 u2 m1 m2 h
  constructor
  · rw [List.foldl_append]
    rw [List.foldl_cons, List.foldl_nil, processLine_direct _ _ _ _ h]
    exact lookupAssoc_updateAssoc_self _ _ _
  · obtain ⟨a, b, c, d⟩ := u2
    simp [parseSessionFile, processLine_direct _ _ _ _ h, updateAssoc,
      aggregateReq, addUsage, zeroUsage]

/-- C2 witness: a three-line file whose last two direct-shape entries
share the request id `req-1`; the map holds the last entry's usage, and
the two-entry file aggregates to `{10, 20, 30, 40}`, not the sum. -/
theorem parseSessionFile_keep_last_write_witness :
    lookupAssoc
        (([mkDirectLine none "req-1" ⟨1, 2, 3, 4⟩ none]
            ++ [mkDirectLine none "req-1" ⟨10, 20, 30, 40⟩ none]).foldl processLine
          { requestMap := [], sessionStart := none, sessionEnd := none }).requestMap
        "req-1"
      = some { usage := ⟨10, 20, 30, 40⟩, model := jsOrStr none "unknown" }
    ∧ (parseSessionFile
        [mkDirectLine none "req-1" ⟨1, 2, 3, 4⟩ none,
         mkDirectLine none "req-1" ⟨10, 20, 30, 40⟩ none]).totalUsage
      = ⟨10, 20, 30, 40⟩ :=
  parseSessionFile_keep_last_write
    [mkDirectLine none "req-1" ⟨1, 2, 3, 4⟩ none] "req-1"
    ⟨1, 2, 3, 4⟩ ⟨10, 20, 30, 40⟩ none none (by decide)

theorem processFile_skip_eq (dryRun : Bool) (now : Nat)
    (uploadOk : UploadRecord → Bool) (machineId : String)
    (synced0 : List (String × Nat)) (project : String) (st : SyncState)
    (f : SessionFile)
    (h : jsTruthyNum (lookupAssoc synced0 f.sessionId) = true) :
    processFile dryRun now uploadOk machineId synced0 project st f =
      { st with skipped := st.skipped + 1 } := by
  simp [processFile, h]

theorem processFile_empty_eq (now : Nat) (uploadOk : UploadRecord → Bool)
    (machineId : String) (synced0 : List (String × Nat)) (project : String)
    (st : SyncState) (f : SessionFile)
    (h1 : jsTruthyNum (lookupAssoc synced0 f.sessionId) = false)
    (h2 : (parseSessionFile f.lines).totalUsage.input_tokens = 0)
    (h3 : (parseSessionFile f.lines).totalUsage.output_tokens = 0) :
    processFile false now uploadOk machineId synced0 project st f =
      { st with ledgerFile := markSynced st.ledgerFile f.sessionId now,
                skipped := st.skipped + 1 } := by
  simp [processFile, h1, h2, h3]

theorem processFile_fail_eq (now : Nat) (uploadOk : UploadRecord → Bool)
    (machineId : String) (synced0 : List (String × Nat)) (project : String)
    (st : SyncState) (f : SessionFile)
    (h1 : jsTruthyNum (lookupAssoc synced0 f.sessionId) = false)
    (h2 : ¬((parseSessionFile f.lines).totalUsage.input_tokens = 0 ∧
            (parseSessionFile f.lines).totalUsage.output_tokens = 0))
    (h3 : uploadOk (mkRecord machineId project f (parseSessionFile f.lines)) = false) :
    processFile false now uploadOk machineId synced0 project st f =
      { st with grandTotal := st.grandTotal + (parseSessionFile f.lines).totalCost,
                uploads := st.uploads
                  ++ [mkRecord machineId project f (parseSessionFile f.lines)] } := by
  simp [processFile, h1, h2, h3]

theorem processFile_success_eq (now : Nat) (uploadOk : UploadRecord → Bool)
    (machineId : String) (synced0 : List (String × Nat)) (project : String)
    (st : SyncState) (f : SessionFile)
    (h1 : jsTruthyNum (lookupAssoc synced0 f.sessionId) = false)
    (h2 : ¬((parseSessionFile f.lines).totalUsage.input_tokens = 0 ∧
            (parseSessionFile f.lines).totalUsage.output_tokens = 0))
    (h3 : uploadOk (mkRecord machineId project f (parseSessionFile f.lines)) = true) :
    processFile false now uploadOk machineId synced0 project st f =
      { st with grandTotal := st.grandTotal + (parseSessionFile f.lines).totalCost,
                uploads := st.uploads
                  ++ [mkRecord machineId project f (parseSessionFile f.lines)],
                ledgerFile := markSynced st.ledgerFile f.sessionId now,
                uploaded := st.uploaded + 1 } := by
  simp [processFile, h1, h2, h3]

theorem processFile_dry_frame (now : Nat) (uploadOk : UploadRecord → Bool)
    (machineId : String) (synced0 : List (String × Nat)) (project : String)
    (st : SyncState) (f : SessionFile) :
    (processFile true now uploadOk machineId synced0 project st f).ledgerFile
        = st.ledgerFile
    ∧ (processFile true now uploadOk machineId synced0 project st f).uploads
        = st.uploads := by
  simp only [processFile]
  split_ifs <;> exact ⟨rfl, rfl⟩

theorem syncFiles_cons (dryRun : Bool) (now : Nat)
    (uploadOk : UploadRecord → Bool) (machineId : String)
    (synced0 : List (String × Nat)) (project : String) (st : SyncState)
    (f : SessionFile) (fs : List SessionFile) :
    syncFiles dryRun now uploadOk machineId synced0 project st (f :: fs) =
      syncFiles dryRun now uploadOk machineId synced0 project
        (processFile dryRun now uploadOk machineId synced0 project st f) fs := rfl

theorem syncFiles_dry_frame (now : Nat) (uploadOk : UploadRecord → Bool)
    (machineId : String) (synced0 : List (String × Nat)) (project : String) :
    ∀ (files : List SessionFile) (st : SyncState),
      (syncFiles true now uploadOk machineId synced0 project st files).ledgerFile
          = st.ledgerFile
      ∧ (syncFiles true now uploadOk machineId synced0 project st files).uploads
          = st.uploads := by
  intro files
  induction files with
  | nil => exact fun st => ⟨rfl, rfl⟩
  | cons f fs ih =>
    intro st
    rw [syncFiles_cons]
    obtain ⟨hl, hu⟩ := ih (processFile true now uploadOk machineId synced0 project st f)
    obtain ⟨hl0, hu0⟩ :=
      processFile_dry_frame now uploadOk machineId synced0 project st f
    exact ⟨hl.trans hl0, hu.trans hu0⟩

/-- C9: a dry-run of the driver never writes to the ledger and never
invokes the upload path for any session: the ledger file it ends with is
the snapshot it started from, and its list of attempted uploads is
empty. -/
theorem syncAll_dry_run_frame :
    ∀ (now : Nat) (uploadOk : UploadRecord → Bool) (machineId : String)
      (synced0 : List (String × Nat)) (dirs : List ProjectDir),
      (syncAll true now uploadOk machineId synced0 dirs).ledgerFile = synced0
      ∧ (syncAll true now uploadOk machineId synced0 dirs).uploads = [] := by
  intro now uploadOk machineId synced0 dirs
  suffices h : ∀ (ds : List ProjectDir) (st : SyncState),
      ((ds.foldl
          (fun st d => syncFiles true now uploadOk machineId synced0 d.project st d.files)
          st).ledgerFile = st.ledgerFile
        ∧ (ds.foldl
          (fun st d => syncFiles true now uploadOk machineId synced0 d.project st d.files)
          st).uploads = st.uploads) by
    exact (h dirs _)
  intro ds
  induction ds with
  | nil => exact fun st => ⟨rfl, rfl⟩
  | cons d rest ih =>
    intro st
    rw [List.foldl_cons]
    obtain ⟨hl, hu⟩ :=
      ih (syncFiles true now uploadOk machineId synced0 d.project st d.files)
    obtain ⟨hl0, hu0⟩ :=
      syncFiles_dry_frame now uploadOk machineId synced0 d.project d.files st
    exact ⟨hl.trans hl0, hu.trans hu0⟩

/-- C7: in non-dry-run mode a session whose aggregate has zero total
input and zero total output tokens is marked synced in the ledger
(`markSynced`, entry set to the current clock) and no upload call is
made for it. -/
theorem processFile_empty_marks_no_upload :
    ∀ (now : Nat) (uploadOk : UploadRecord → Bool) (machineId : String)
      (synced0 : List (String × Nat)) (project : String) (st : SyncState)
      (f : SessionFile),
      jsTruthyNum (lookupAssoc synced0 f.sessionId) = false →
      (parseSessionFile f.lines).totalUsage.input_tokens = 0 →
      (parseSessionFile f.lines).totalUsage.output_tokens = 0 →
      (processFile false now uploadOk machineId synced0 project st f).ledgerFile
          = markSynced st.ledgerFile f.sessionId now
      ∧ lookupAssoc
          (processFile false now uploadOk machineId synced0 project st f).ledgerFile
          f.sessionId = some now
      ∧ (processFile false now uploadOk machineId synced0 project st f).uploads
          = st.uploads := by
  intro now uploadOk machineId synced0 project st f h1 h2 h3
  rw [processFile_empty_eq now uploadOk machineId synced0 project st f h1 h2 h3]
  exact ⟨rfl, lookupAssoc_updateAssoc_self _ _ _, rfl⟩

/-- C7 witness: an empty session file (no lines) under an empty ledger
snapshot, clock 7. -/
theorem processFile_empty_marks_no_upload_witness :
    (processFile false 7 (fun _ => true) "m1" [] "proj"
        ⟨[], [], 0, 0, 0⟩ ⟨"empty-sess", [], "b", "t"⟩).ledgerFile
        = markSynced [] "empty-sess" 7
    ∧ lookupAssoc
        (processFile false 7 (fun _ => true) "m1" [] "proj"
          ⟨[], [], 0, 0, 0⟩ ⟨"empty-sess", [], "b", "t"⟩).ledgerFile
        "empty-sess" = some 7
    ∧ (processFile false 7 (fun _ => true) "m1" [] "proj"
        ⟨[], [], 0, 0, 0⟩ ⟨"empty-sess", [], "b", "t"⟩).uploads = [] :=
  processFile_empty_marks_no_upload 7 (fun _ => true) "m1" [] "proj"
    ⟨[], [], 0, 0, 0⟩ ⟨"empty-sess", [], "b", "t"⟩
    (by decide) (by decide) (by decide)

/-- C8: when the upload of a session fails, the driver leaves the ledger
unchanged (the session is not marked synced), attempts the upload for
that session exactly once in the run (no retry), and continues the loop
with the remaining session files from the resulting state. -/
theorem processFile_upload_failure :
    ∀ (now : Nat) (uploadOk : UploadRecord → Bool) (machineId : String)
      (synced0 : List (String × Nat)) (project : String) (st : SyncState)
      (f : SessionFile) (rest : List SessionFile),
      jsTruthyNum (lookupAssoc synced0 f.sessionId) = false →
      ¬((parseSessionFile f.lines).totalUsage.input_tokens = 0 ∧
        (parseSessionFile f.lines).totalUsage.output_tokens = 0) →
      uploadOk (mkRecord machineId project f (parseSessionFile f.lines)) = false →
      (processFile false now uploadOk machineId synced0 project st f).ledgerFile
          = st.ledgerFile
      ∧ (processFile false now uploadOk machineId synced0 project st f).uploads
          = st.uploads ++ [mkRecord machineId project f (parseSessionFile f.lines)]
      ∧ syncFiles false now uploadOk machineId synced0 project st (f :: rest)
          = syncFiles false now uploadOk machineId synced0 project
              (processFile false now uploadOk machineId synced0 project st f) rest := by
  intro now uploadOk machineId synced0 project st f rest h1 h2 h3
  refine ⟨?_, ?_, rfl⟩ <;>
    rw [processFile_fail_eq now uploadOk machineId synced0 project st f h1 h2 h3]

/-- C8 witness: a one-request session (5 input, 5 output tokens) whose
upload is refused by the oracle `fun r => false`. -/
theorem processFile_upload_failure_witness :
    (processFile false 7 (fun _ => false) "m1" [] "proj" ⟨[], [], 0, 0, 0⟩
        ⟨"s1", [mkDirectLine none "req-1" ⟨5, 5, 0, 0⟩ none], "b", "t"⟩).ledgerFile
        = []
    ∧ (processFile false 7 (fun _ => false) "m1" [] "proj" ⟨[], [], 0, 0, 0⟩
        ⟨"s1", [mkDirectLine none "req-1" ⟨5, 5, 0, 0⟩ none], "b", "t"⟩).uploads
        = [] ++ [mkRecord "m1" "proj"
            ⟨"s1", [mkDirectLine none "req-1" ⟨5, 5, 0, 0⟩ none], "b", "t"⟩
            (parseSessionFile [mkDirectLine none "req-1" ⟨5, 5, 0, 0⟩ none])]
    ∧ syncFiles false 7 (fun _ => false) "m1" [] "proj" ⟨[], [], 0, 0, 0⟩
        [⟨"s1", [mkDirectLine none "req-1" ⟨5, 5, 0, 0⟩ none], "b", "t"⟩]
        = syncFiles false 7 (fun _ => false) "m1" [] "proj"
            (processFile false 7 (fun _ => false) "m1" [] "proj" ⟨[], [], 0, 0, 0⟩
              ⟨"s1", [mkDirectLine none "req-1" ⟨5, 5, 0, 0⟩ none], "b", "t"⟩) [] :=
  processFile_upload_failure 7 (fun _ => false) "m1" [] "proj" ⟨[], [], 0, 0, 0⟩
    ⟨"s1", [mkDirectLine none "req-1" ⟨5, 5, 0, 0⟩ none], "b", "t"⟩ []
    (by decide) (by decide) rfl

/-- C10 counterexample: the one-request session with a single cache-read
token has zero input/output totals and positive cache-read total, yet
the cost calculator applied to its aggregate usage returns exactly 0
(the un-rounded cost 0.0000003 rounds to zero at six decimal places),
not a strictly positive cost. -/
theorem cache_only_cost_can_round_to_zero :
    (parseSessionFile [mkDirectLine none "req-1" ⟨0, 0, 0, 1⟩
        (some "claude-sonnet-4-20250514")]).totalUsage.input_tokens = 0
    ∧ (parseSessionFile [mkDirectLine none "req-1" ⟨0, 0, 0, 1⟩
        (some "claude-sonnet-4-20250514")]).totalUsage.output_tokens = 0
    ∧ 0 < (parseSessionFile [mkDirectLine none "req-1" ⟨0, 0, 0, 1⟩
        (some "claude-sonnet-4-20250514")]).totalUsage.cache_read_input_tokens
    ∧ getModelFamily "claude-sonnet-4-20250514" = "claude-sonnet-4"
    ∧ calculateCost
        (parseSessionFile [mkDirectLine none "req-1" ⟨0, 0, 0, 1⟩
          (some "claude-sonnet-4-20250514")]).totalUsage
        "claude-sonnet-4" = 0 := by
  have h : (parseSessionFile [mkDirectLine none "req-1" ⟨0, 0, 0, 1⟩
      (some "claude-sonnet-4-20250514")]).totalUsage = ⟨0, 0, 0, 1⟩ := by decide
  refine ⟨by decide, by decide, by decide, by decide, ?_⟩
  rw [h, calculateCost_eq, getPricing_sonnet]
  norm_num [costRaw, normalInput, roundTo6, jsRound]

/-- C10 amended: a session whose aggregate has zero input and zero
output totals is classified empty purely from those two fields — it is
marked synced and never uploaded even when its cache totals are
positive; the cost calculator applied to such an aggregate can be
strictly positive (100 cache-read tokens on `claude-sonnet-4` cost
0.00003), although for small enough cache counts the six-decimal
rounding makes it exactly 0. -/
theorem processFile_cache_only_classified_empty :
    (∀ (now : Nat) (uploadOk : UploadRecord → Bool) (machineId : String)
      (synced0 : List (String × Nat)) (project : String) (st : SyncState)
      (f : SessionFile),
      jsTruthyNum (lookupAssoc synced0 f.sessionId) = false →
      (parseSessionFile f.lines).totalUsage.input_tokens = 0 →
      (parseSessionFile f.lines).totalUsage.output_tokens = 0 →
      0 < (parseSessionFile f.lines).totalUsage.cache_read_input_tokens +
          (parseSessionFile f.lines).totalUsage.cache_creation_input_tokens →
      processFile false now uploadOk machineId synced0 project st f =
        { st with ledgerFile := markSynced st.ledgerFile f.sessionId now,
                  skipped := st.skipped + 1 })
    ∧ calculateCost ⟨0, 0, 0, 100⟩ "claude-sonnet-4" = 3 / 100000
    ∧ (0:ℚ) < 3 / 100000 := by
  refine ⟨?_, ?_, by norm_num⟩
  · intro now uploadOk machineId synced0 project st f h1 h2 h3 _
    exact processFile_empty_eq now uploadOk machineId synced0 project st f h1 h2 h3
  · rw [calculateCost_eq, getPricing_sonnet]
    norm_num [costRaw, normalInput, roundTo6, jsRound]

/-- C10 amended witness: a 100-cache-read-token session is marked synced
and not uploaded. -/
theorem processFile_cache_only_classified_empty_witness :
    processFile false 7 (fun _ => true) "m1" [] "proj" ⟨[], [], 0, 0, 0⟩
        ⟨"s-cache",
         [mkDirectLine none "r1" ⟨0, 0, 0, 100⟩ (some "claude-sonnet-4-20250514")],
         "b", "t"⟩
      = ⟨markSynced [] "s-cache" 7, [], 0, 1, 0⟩ :=
  processFile_cache_only_classified_empty.1 7 (fun _ => true) "m1" [] "proj"
    ⟨[], [], 0, 0, 0⟩
    ⟨"s-cache",
     [mkDirectLine none "r1" ⟨0, 0, 0, 100⟩ (some "claude-sonnet-4-20250514")],
     "b", "t"⟩
    (by decide) (by decide) (by decide) (by decide)

theorem lookupAssoc_updateAssoc {α : Type} (m : List (String × α))
    (k k' : String) (v : α) :
    lookupAssoc (updateAssoc m k' v) k =
      if k' = k then some v else lookupAssoc m k := by
  induction m with
  | nil =>
    by_cases h1 : k' = k <;> simp [updateAssoc, lookupAssoc, h1]
  | cons p rest ih =>
    obtain ⟨k0, v0⟩ := p
    by_cases h0 : k0 = k'
    · subst h0
      by_cases h1 : k0 = k <;> simp [updateAssoc, lookupAssoc, h1]
    · by_cases h1 : k0 = k
      · have h2 : k' ≠ k := fun he => h0 (h1.trans he.symm)
        subst h1
        simp [updateAssoc, lookupAssoc, h0, h2]
      · simp [updateAssoc, lookupAssoc, h0, h1, ih]

theorem jsTruthyNum_markSynced_self (L : List (String × Nat)) (sid : String)
    (now : Nat) (hnow : now ≠ 0) :
    jsTruthyNum (lookupAssoc (markSynced L sid now) sid) = true := by
  simp [markSynced, lookupAssoc_updateAssoc, jsTruthyNum, hnow]

theorem jsTruthyNum_markSynced_mono (L : List (String × Nat)) (sid k : String)
    (now : Nat) (hnow : now ≠ 0)
    (hk : jsTruthyNum (lookupAssoc L k) = true) :
    jsTruthyNum (lookupAssoc (markSynced L sid now) k) = true := by
  rw [markSynced, lookupAssoc_updateAssoc]
  by_cases hs : sid = k
  · simp [hs, jsTruthyNum, hnow]
  · simp [hs, hk]

theorem processFile_ledger_mono (dryRun : Bool) (now : Nat)
    (uploadOk : UploadRecord → Bool) (machineId : String)
    (synced0 : List (String × Nat)) (project : String) (st : SyncState)
    (f : SessionFile) (k : String) (hnow : now ≠ 0)
    (hk : jsTruthyNum (lookupAssoc st.ledgerFile k) = true) :
    jsTruthyNum
      (lookupAssoc
        (processFile dryRun now uploadOk machineId synced0 project st f).ledgerFile
        k) = true := by
  simp only [processFile]
  split_ifs <;>
    first
      | exact hk
      | exact jsTruthyNum_markSynced_mono _ _ _ _ hnow hk

theorem processFile_marks (now : Nat) (uploadOk : UploadRecord → Bool)
    (machineId : String) (synced0 : List (String × Nat)) (project : String)
    (st : SyncState) (f : SessionFile) (hnow : now ≠ 0)
    (hok : ∀ r, uploadOk r = true)
    (hsub : ∀ k, jsTruthyNum (lookupAssoc synced0 k) = true →
      jsTruthyNum (lookupAssoc st.ledgerFile k) = true) :
    jsTruthyNum
      (lookupAssoc
        (processFile false now uploadOk machineId synced0 project st f).ledgerFile
        f.sessionId) = true := by
  by_cases h1 : jsTruthyNum (lookupAssoc synced0 f.sessionId) = true
  · rw [processFile_skip_eq false now uploadOk machineId synced0 project st f h1]
    exact hsub _ h1
  · have h1f : jsTruthyNum (lookupAssoc synced0 f.sessionId) = false := by
      revert h1
      cases jsTruthyNum (lookupAssoc synced0 f.sessionId) <;> simp
    by_cases h2 : (parseSessionFile f.lines).totalUsage.input_tokens = 0 ∧
        (parseSessionFile f.lines).totalUsage.output_tokens = 0
    · rw [processFile_empty_eq now uploadOk machineId synced0 project st f
        h1f h2.1 h2.2]
      exact jsTruthyNum_markSynced_self _ _ _ hnow
    · rw [processFile_success_eq now uploadOk machineId synced0 project st f
        h1f h2 (hok _)]
      exact jsTruthyNum_markSynced_self _ _ _ hnow

theorem syncFiles_ledger_mono (dryRun : Bool) (now : Nat)
    (uploadOk : UploadRecord → Bool) (machineId : String)
    (synced0 : List (String × Nat)) (project : String) :
    ∀ (files : List SessionFile) (st : SyncState) (k : String), now ≠ 0 →
      jsTruthyNum (lookupAssoc st.ledgerFile k) = true →
      jsTruthyNum
        (lookupAssoc
          (syncFiles dryRun now uploadOk machineId synced0 project st files).ledgerFile
          k) = true := by
  intro files
  induction files with
  | nil => exact fun st k _ hk => hk
  | cons f fs ih =>
    intro st k hnow hk
    rw [syncFiles_cons]
    exact ih _ k hnow
      (processFile_ledger_mono dryRun now uploadOk machineId synced0 project
        st f k hnow hk)

theorem syncFiles_marks (now : Nat) (uploadOk : UploadRecord → Bool)
    (machineId : String) (synced0 : List (String × Nat)) (project : String)
    (hnow : now ≠ 0) (hok : ∀ r, uploadOk r = true) :
    ∀ (files : List SessionFile) (st : SyncState),
      (∀ k, jsTruthyNum (lookupAssoc synced0 k) = true →
        jsTruthyNum (lookupAssoc st.ledgerFile k) = true) →
      (∀ f ∈ files,
        jsTruthyNum
          (lookupAssoc
            (syncFiles false now uploadOk machineId synced0 project st files).ledgerFile
            f.sessionId) = true)
      ∧ (∀ k, jsTruthyNum (lookupAssoc synced0 k) = true →
          jsTruthyNum
            (lookupAssoc
              (syncFiles false now uploadOk machineId synced0 project st files).ledgerFile
              k) = true) := by
  intro files
  induction files with
  | nil => exact fun st hsub => ⟨fun f hf => absurd hf (List.not_mem_nil f), hsub⟩
  | cons f fs ih =>
    intro st hsub
    have hsub1 : ∀ k, jsTruthyNum (lookupAssoc synced0 k) = true →
        jsTruthyNum
          (lookupAssoc
            (processFile false now uploadOk machineId synced0 project st f).ledgerFile
            k) = true :=
      fun k hk =>
        processFile_ledger_mono false now uploadOk machineId synced0 project
          st f k hnow (hsub k hk)
    obtain ⟨ihmarks, ihsub⟩ :=
      ih (processFile false now uploadOk machineId synced0 project st f) hsub1
    constructor
    · intro g hg
      rcases List.mem_cons.mp hg with hg | hg
      · subst hg
        rw [syncFiles_cons]
        exact syncFiles_ledger_mono false now uploadOk machineId synced0
          project fs _ g.sessionId hnow
          (processFile_marks now uploadOk machineId synced0 project st g
            hnow hok hsub)
      · rw [syncFiles_cons]
        exact ihmarks g hg
    · intro k hk
      rw [syncFiles_cons]
      exact ihsub k hk

theorem syncDirs_ledger_mono (dryRun : Bool) (now : Nat)
    (uploadOk : UploadRecord → Bool) (machineId : String)
    (synced0 : List (String × Nat)) :
    ∀ (dirs : List ProjectDir) (st : SyncState) (k : String), now ≠ 0 →
      jsTruthyNum (lookupAssoc st.ledgerFile k) = true →
      jsTruthyNum
        (lookupAssoc
          (dirs.foldl
            (fun st d => syncFiles dryRun now uploadOk machineId synced0 d.project st d.files)
            st).ledgerFile
          k) = true := by
  intro dirs
  induction dirs with
  | nil => exact fun st k _ hk => hk
  | cons d rest ih =>
    intro st k hnow hk
    rw [List.foldl_cons]
    exact ih _ k hnow
      (syncFiles_ledger_mono dryRun now uploadOk machineId synced0 d.project
        d.files st k hnow hk)

theorem syncDirs_marks (now : Nat) (uploadOk : UploadRecord → Bool)
    (machineId : String) (synced0 : List (String × Nat)) (hnow : now ≠ 0)
    (hok : ∀ r, uploadOk r = true) :
    ∀ (dirs : List ProjectDir) (st : SyncState),
      (∀ k, jsTruthyNum (lookupAssoc synced0 k) = true →
        jsTruthyNum (lookupAssoc st.ledgerFile k) = true) →
      ∀ d ∈ dirs, ∀ f ∈ d.files,
        jsTruthyNum
          (lookupAssoc
            (dirs.foldl
              (fun st d => syncFiles false now uploadOk machineId synced0 d.project st d.files)
              st).ledgerFile
            f.sessionId) = true := by
  intro dirs
  induction dirs with
  | nil => exact fun st _ d hd => absurd hd (List.not_mem_nil d)
  | cons d rest ih =>
    intro st hsub e he f hf
    obtain ⟨hmarks, hsub1⟩ :=
      syncFiles_marks now uploadOk machineId synced0 d.project hnow hok
        d.files st hsub
    rw [List.foldl_cons]
    rcases List.mem_cons.mp he with he | he
    · subst he
      exact syncDirs_ledger_mono false now uploadOk machineId synced0 rest _
        f.sessionId hnow (hmarks f hf)
    · exact ih _ hsub1 e he f hf

theorem syncFiles_all_skip (dryRun : Bool) (now : Nat)
    (uploadOk : UploadRecord → Bool) (machineId : String)
    (synced0 : List (String × Nat)) (project : String) :
    ∀ (files : List SessionFile) (st : SyncState),
      (∀ f ∈ files, jsTruthyNum (lookupAssoc synced0 f.sessionId) = true) →
      syncFiles dryRun now uploadOk machineId synced0 project st files =
        { st with skipped := st.skipped + files.length } := by
  intro files
  induction files with
  | nil =>
    intro st _
    obtain ⟨l, u, up, sk, g⟩ := st
    simp [syncFiles]
  | cons f fs ih =>
    intro st h
    rw [syncFiles_cons,
      processFile_skip_eq dryRun now uploadOk machineId synced0 project st f
        (h f (List.mem_cons_self f fs)),
      ih _ (fun g hg => h g (List.mem_cons_of_mem f hg))]
    obtain ⟨l, u, up, sk, g⟩ := st
    simp [List.length_cons]
    omega

theorem syncDirs_all_skip (dryRun : Bool) (now : Nat)
    (uploadOk : UploadRecord → Bool) (machineId : String)
    (synced0 : List (String × Nat)) :
    ∀ (dirs : List ProjectDir) (st : SyncState),
      (∀ d ∈ dirs, ∀ f ∈ d.files,
        jsTruthyNum (lookupAssoc synced0 f.sessionId) = true) →
      (dirs.foldl
          (fun st d => syncFiles dryRun now uploadOk machineId synced0 d.project st d.files)
          st).uploads = st.uploads
      ∧ (dirs.foldl
          (fun st d => syncFiles dryRun now uploadOk machineId synced0 d.project st d.files)
          st).uploaded = st.uploaded := by
  intro dirs
  induction dirs with
  | nil => exact fun st _ => ⟨rfl, rfl⟩
  | cons d rest ih =>
    intro st h
    rw [List.foldl_cons,
      syncFiles_all_skip dryRun now uploadOk machineId synced0 d.project
        d.files st (h d (List.mem_cons_self d rest))]
    exact ih _ (fun e he f hf => h e (List.mem_cons_of_mem d he) f hf)

/-- C1: a session whose id is truthy in the ledger snapshot is skipped
with no effect other than the skip counter (in particular no upload and
no parse for it); and after a fully successful non-dry run (non-zero
clock, every upload accepted), a second driver run over the unchanged
directory tree with the resulting ledger uploads zero sessions. -/
theorem syncAll_ledger_idempotent :
    (∀ (dryRun : Bool) (now : Nat) (uploadOk : UploadRecord → Bool)
      (machineId : String) (synced0 : List (String × Nat)) (project : String)
      (st : SyncState) (f : SessionFile),
      jsTruthyNum (lookupAssoc synced0 f.sessionId) = true →
      processFile dryRun now uploadOk machineId synced0 project st f =
        { st with skipped := st.skipped + 1 })
    ∧ (∀ (now now2 : Nat) (uploadOk uploadOk2 : UploadRecord → Bool)
      (machineId machineId2 : String) (synced0 : List (String × Nat))
      (dirs : List ProjectDir) (dryRun2 : Bool),
      now ≠ 0 → (∀ r, uploadOk r = true) →
      (syncAll dryRun2 now2 uploadOk2 machineId2
          (syncAll false now uploadOk machineId synced0 dirs).ledgerFile
          dirs).uploads = []
      ∧ (syncAll dryRun2 now2 uploadOk2 machineId2
          (syncAll false now uploadOk machineId synced0 dirs).ledgerFile
          dirs).uploaded = 0) := by
  constructor
  · exact processFile_skip_eq
  · intro now now2 uploadOk uploadOk2 machineId machineId2 synced0 dirs
      dryRun2 hnow hok
    have hmarks := syncDirs_marks now uploadOk machineId synced0 hnow hok dirs
      ⟨synced0, [], 0, 0, 0⟩ (fun _ hk => hk)
    exact syncDirs_all_skip dryRun2 now2 uploadOk2 machineId2
      (syncAll false now uploadOk machineId synced0 dirs).ledgerFile dirs
      ⟨(syncAll false now uploadOk machineId synced0 dirs).ledgerFile, [], 0, 0, 0⟩
      hmarks

/-- C1 witness: a ledger-resident session is skipped, and a second run
after a fully successful run over a one-session tree uploads nothing. -/
theorem syncAll_ledger_idempotent_witness :
    processFile false 1 (fun _ => true) "m1" [("s1", 5)] "proj"
        ⟨[("s1", 5)], [], 0, 0, 0⟩ ⟨"s1", [], "b", "t"⟩
      = ⟨[("s1", 5)], [], 0, 1, 0⟩
    ∧ (syncAll false 2 (fun _ => true) "m2"
        (syncAll false 1 (fun _ => true) "m1" []
          [⟨"proj", [⟨"s1", [mkDirectLine none "r1" ⟨5, 5, 0, 0⟩ none], "b", "t"⟩]⟩]).ledgerFile
        [⟨"proj", [⟨"s1", [mkDirectLine none "r1" ⟨5, 5, 0, 0⟩ none], "b", "t"⟩]⟩]).uploads = []
    ∧ (syncAll false 2 (fun _ => true) "m2"
        (syncAll false 1 (fun _ => true) "m1" []
          [⟨"proj", [⟨"s1", [mkDirectLine none "r1" ⟨5, 5, 0, 0⟩ none], "b", "t"⟩]⟩]).ledgerFile
        [⟨"proj", [⟨"s1", [mkDirectLine none "r1" ⟨5, 5, 0, 0⟩ none], "b", "t"⟩]⟩]).uploaded = 0 :=
  ⟨syncAll_ledger_idempotent.1 false 1 (fun _ => true) "m1" [("s1", 5)] "proj"
      ⟨[("s1", 5)], [], 0, 0, 0⟩ ⟨"s1", [], "b", "t"⟩ (by decide),
   (syncAll_ledger_idempotent.2 1 2 (fun _ => true) (fun _ => true) "m1" "m2" []
      [⟨"proj", [⟨"s1", [mkDirectLine none "r1" ⟨5, 5, 0, 0⟩ none], "b", "t"⟩]⟩]
      false (by decide) (fun _ => rfl)).1,
   (syncAll_ledger_idempotent.2 1 2 (fun _ => true) (fun _ => true) "m1" "m2" []
      [⟨"proj", [⟨"s1", [mkDirectLine none "r1" ⟨5, 5, 0, 0⟩ none], "b", "t"⟩]⟩]
      false (by decide) (fun _ => rfl)).2⟩
